import Mathlib

/-!
# kube-label-admission: the admission decision of `main.go`

A shallow embedding of the request handling in `src/main.go`:
`isUserAllowed`, `toAdmissionResponse`, `admit` and the handler returned by
`mkServe`.

Conventions of the embedding.

* The package-level variables `protectedLabel` and `allowedUsers` are read-only
  after flag parsing; they are passed as explicit arguments.
* The two library decoders the code calls, `json.Unmarshal` (object payload into
  the `metadata` struct) and `deserializer.Decode` (review envelope), are not
  code of this repository; they are passed as arguments `Unmarshal` and `Decode`.
* Go pointers that may be nil (`ar.Request`, `Response`, `Result`) are `Option`s;
  dereferencing `none` is the run-time fault `Fault.nilPointerDereference`.
* A Go `map[string]string` is an association list; `range` visits the entries
  in some order, here the order of the list.
* Only the struct fields the code reads or writes are kept.
-/

set_option maxRecDepth 8000

namespace KubeLabelAdmission

/-! ## Data model -/

/-- A Go byte slice, one list element per byte. -/
abbrev Bytes := List Nat

/-- The bytes of an ASCII string. -/
def asciiBytes (s : String) : Bytes := s.toList.map Char.toNat

/-- The type `metav1.Status`, of which the code sets `Message` only. -/
structure Status where
  Message : String := ""
deriving DecidableEq, Repr

/-- The type `v1beta1.AdmissionResponse`; the zero value has `Allowed = false`. -/
structure AdmissionResponse where
  UID : String := ""
  Allowed : Bool := false
  Result : Option Status := none
deriving DecidableEq, Repr

/-- The type `authenticationv1.UserInfo`. -/
structure UserInfo where
  Username : String := ""
deriving DecidableEq, Repr

/-- The type `runtime.RawExtension`. -/
structure RawExtension where
  Raw : Bytes := []
deriving DecidableEq, Repr

/-- The type `v1beta1.AdmissionRequest`. -/
structure AdmissionRequest where
  UID : String := ""
  Operation : String := ""
  UserInfo : UserInfo := {}
  Object : RawExtension := {}
  OldObject : RawExtension := {}
deriving DecidableEq, Repr

/-- The type `v1beta1.AdmissionReview`; `Request` and `Response` are pointers. -/
structure AdmissionReview where
  Request : Option AdmissionRequest := none
  Response : Option AdmissionResponse := none
deriving DecidableEq, Repr

/-- The type `metav1.ObjectMeta`, of which the code reads `Labels` only. -/
structure ObjectMeta where
  Labels : List (String × String) := []
deriving DecidableEq, Repr

/-- The anonymous struct of `admit` that embeds `ObjectMeta` under the JSON
name `metadata`. -/
structure Meta where
  ObjectMeta : ObjectMeta := {}
deriving DecidableEq, Repr

/-- A run-time fault of the Go program. -/
inductive Fault where
  | nilPointerDereference
deriving DecidableEq, Repr

/-- The library call `json.Unmarshal(raw, &meta)`: the decoded struct, or the
text of the error. -/
abbrev UnmarshalFn := Bytes → Except String Meta

/-- The library call `deserializer.Decode(body, nil, &ar)`: the review as the
call leaves it, and the text of the error if there is one. -/
abbrev DecodeFn := Bytes → AdmissionReview → AdmissionReview × Option String

/-- The parts of `*http.Request` the handler reads: the body (`none` for a nil
body, an error when reading it fails) and the `Content-Type` header. -/
structure HttpRequest where
  Body : Option (Except String Bytes) := none
  ContentType : String := ""

/-- What one call of the handler does: return without writing (line 98), stop
with a fault, or write the marshalled `response`. -/
inductive Served where
  | nothing
  | fault (f : Fault)
  | wrote (response : AdmissionReview)
deriving DecidableEq, Repr

/-! ## Operations -/

/-- The function `isUserAllowed` (lines 172-179). -/
def isUserAllowed (allowedUsers : List String) (username : String) : Bool :=
  match allowedUsers with
  | [] => false
  | allowed :: rest =>
    if username == allowed then true else isUserAllowed rest username

/-- The function `toAdmissionResponse` (lines 130-136). -/
def toAdmissionResponse (err : String) : AdmissionResponse :=
  { Result := some { Message := err } }

/-- The loop over `meta.Labels` of `admit` (lines 158-166). -/
def scanLabels (protectedLabel : String) (reviewResponse : AdmissionResponse) :
    List (String × String) → AdmissionResponse
  | [] => reviewResponse
  | (k, _) :: rest =>
    if k == protectedLabel then
      { reviewResponse with
        Allowed := false
        Result := some { Message := "label " ++ protectedLabel ++ " is protected" } }
    else scanLabels protectedLabel reviewResponse rest

/-- The function `admit` (lines 138-170); the name `admit` is reserved in Lean. -/
def admitReview (protectedLabel : String) (allowedUsers : List String)
    (Unmarshal : UnmarshalFn) (ar : AdmissionReview) : Except Fault AdmissionResponse :=
  let reviewResponse : AdmissionResponse := { Allowed := true }
  match ar.Request with
  | none => .error .nilPointerDereference
  | some req =>
    if !isUserAllowed allowedUsers req.UserInfo.Username then
      if req.Operation != "CREATE" && req.Operation != "UPDATE" then
        .ok (toAdmissionResponse "expected operation to be CREATE or UPDATE")
      else
        match Unmarshal req.Object.Raw with
        | .error err => .ok (toAdmissionResponse err)
        | .ok meta => .ok (scanLabels protectedLabel reviewResponse meta.ObjectMeta.Labels)
    else .ok reviewResponse

/-- The body read at the start of the handler (lines 87-92): it stays nil
when there is no body or reading it fails. -/
def readBody (r : HttpRequest) : Bytes :=
  match r.Body with
  | some (.ok data) => data
  | _ => []

/-- The handler returned by `mkServe` (lines 85-128). The value passed to
`json.Marshal` and written is reported as `Served.wrote`. -/
def mkServe (protectedLabel : String) (allowedUsers : List String)
    (Unmarshal : UnmarshalFn) (Decode : DecodeFn) (r : HttpRequest) : Served :=
  let body : Bytes := readBody r
  if r.ContentType != "application/json" then .nothing
  else
    let decoded := Decode body {}
    let ar := decoded.1
    let admitted : Except Fault (Option AdmissionResponse) :=
      match decoded.2 with
      | some err => .ok (some (toAdmissionResponse err))
      | none => (admitReview protectedLabel allowedUsers Unmarshal ar).map some
    match admitted with
    | .error f => .fault f
    | .ok reviewResponse =>
      let response : AdmissionReview := {}
      match reviewResponse, ar.Request with
      | some rr, some req =>
        .wrote { response with Response := some { rr with UID := req.UID } }
      | some _, none => .fault .nilPointerDereference
      | none, some _ => .wrote response
      | none, none => .fault .nilPointerDereference

/-! ## Sample library results

Values of the two library decoders at the payloads of the concrete scenarios. -/

/-- The payload with JSON text {"metadata":{"labels":{"team":"x"}}}. -/
def payloadTeam : Bytes :=
  asciiBytes "\x7b\"metadata\":\x7b\"labels\":\x7b\"team\":\"x\"\x7d\x7d\x7d"

/-- The payload with JSON text {"metadata":{"labels":{"app":"x"}}}. -/
def payloadApp : Bytes :=
  asciiBytes "\x7b\"metadata\":\x7b\"labels\":\x7b\"app\":\"x\"\x7d\x7d\x7d"

/-- The payload with JSON text {"metadata":{"labels":{"":"x"}}}, whose only
label has the empty string as key. -/
def payloadEmptyKey : Bytes :=
  asciiBytes "\x7b\"metadata\":\x7b\"labels\":\x7b\"\":\"x\"\x7d\x7d\x7d"

/-- The truncated payload with JSON text {"metadata": . -/
def payloadTruncated : Bytes :=
  asciiBytes "\x7b\"metadata\":"

/-- What `json.Unmarshal` gives on the sample payloads; every other input is
treated like the truncated one. -/
def sampleUnmarshal : UnmarshalFn := fun raw =>
  if raw = payloadTeam then .ok { ObjectMeta := { Labels := [("team", "x")] } }
  else if raw = payloadApp then .ok { ObjectMeta := { Labels := [("app", "x")] } }
  else if raw = payloadEmptyKey then .ok { ObjectMeta := { Labels := [("", "x")] } }
  else .error "unexpected end of JSON input"

/-- A payload decoder that rejects every payload with an error whose text is
empty; a Go `error` may have any text, the empty one included. -/
def emptyTextUnmarshal : UnmarshalFn := fun _ => .error ""

/-- The review request of the concrete scenarios. -/
def sampleRequest (uid username operation : String) (raw : Bytes) : AdmissionRequest :=
  { UID := uid, Operation := operation, UserInfo := { Username := username },
    Object := { Raw := raw } }

/-- The envelope body with JSON text
{"kind":"AdmissionReview","apiVersion":"admission.k8s.io/v1beta1",
"request":{"uid":"u-1","operation":"DELETE","userInfo":{"username":"alice"},
"object":{"metadata":{"labels":{"team":"x"}}}}}
(on one line). -/
def bodyReview : Bytes :=
  asciiBytes
    ("\x7b\"kind\":\"AdmissionReview\",\"apiVersion\":\"admission.k8s.io/v1beta1\"," ++
     "\"request\":\x7b\"uid\":\"u-1\",\"operation\":\"DELETE\"," ++
     "\"userInfo\":\x7b\"username\":\"alice\"\x7d," ++
     "\"object\":\x7b\"metadata\":\x7b\"labels\":\x7b\"team\":\"x\"\x7d\x7d\x7d\x7d\x7d")

/-- The truncated envelope body with JSON text {"request": . -/
def bodyTruncated : Bytes :=
  asciiBytes "\x7b\"request\":"

/-- What `deserializer.Decode` gives on the sample bodies: `bodyReview` decodes
to the DELETE request of alice with UID "u-1"; every other body is treated like
the truncated one, which is rejected before the review is written to. -/
def sampleDecode : DecodeFn := fun body ar =>
  if body = bodyReview then
    ({ ar with Request := some (sampleRequest "u-1" "alice" "DELETE" payloadTeam) }, none)
  else
    (ar, some "couldn't get version/kind; json parse error: unexpected end of JSON input")

/-! ## Auxiliary lemmas -/

theorem isUserAllowed_eq_true_iff (allowedUsers : List String) (username : String) :
    isUserAllowed allowedUsers username = true ↔ username ∈ allowedUsers := by
  induction allowedUsers with
  | nil => simp [isUserAllowed]
  | cons a rest ih =>
    by_cases h : username = a
    · simp [isUserAllowed, h]
    · simp [isUserAllowed, h, ih]

theorem isUserAllowed_eq_false_iff (allowedUsers : List String) (username : String) :
    isUserAllowed allowedUsers username = false ↔ username ∉ allowedUsers := by
  rw [← isUserAllowed_eq_true_iff]; simp

theorem scanLabels_of_key (protectedLabel : String) (rr : AdmissionResponse)
    (labels : List (String × String)) (h : ∃ v, (protectedLabel, v) ∈ labels) :
    scanLabels protectedLabel rr labels =
      { rr with
        Allowed := false
        Result := some { Message := "label " ++ protectedLabel ++ " is protected" } } := by
  induction labels with
  | nil => simp at h
  | cons kv rest ih =>
    obtain ⟨k, w⟩ := kv
    by_cases hk : k = protectedLabel
    · simp [scanLabels, hk]
    · have hrest : ∃ v, (protectedLabel, v) ∈ rest := by
        obtain ⟨v, hv⟩ := h
        rcases List.mem_cons.mp hv with heq | hmem
        · exact absurd (congrArg Prod.fst heq).symm hk
        · exact ⟨v, hmem⟩
      simp [scanLabels, hk, ih hrest]

theorem scanLabels_of_no_key (protectedLabel : String) (rr : AdmissionResponse)
    (labels : List (String × String)) (h : ∀ kv ∈ labels, kv.1 ≠ protectedLabel) :
    scanLabels protectedLabel rr labels = rr := by
  induction labels with
  | nil => simp [scanLabels]
  | cons kv rest ih =>
    obtain ⟨k, w⟩ := kv
    have hk : k ≠ protectedLabel := h (k, w) (List.mem_cons_self _ _)
    have hrest : ∀ kv ∈ rest, kv.1 ≠ protectedLabel :=
      fun kv hkv => h kv (List.mem_cons_of_mem _ hkv)
    simp [scanLabels, hk, ih hrest]

theorem admitReview_of_allowed (protectedLabel : String) (allowedUsers : List String)
    (Unmarshal : UnmarshalFn) (ar : AdmissionReview) (req : AdmissionRequest)
    (hreq : ar.Request = some req) (huser : req.UserInfo.Username ∈ allowedUsers) :
    admitReview protectedLabel allowedUsers Unmarshal ar = .ok { Allowed := true } := by
  have h := (isUserAllowed_eq_true_iff allowedUsers req.UserInfo.Username).mpr huser
  simp [admitReview, hreq, h]

theorem admitReview_of_other_operation (protectedLabel : String) (allowedUsers : List String)
    (Unmarshal : UnmarshalFn) (ar : AdmissionReview) (req : AdmissionRequest)
    (hreq : ar.Request = some req) (huser : req.UserInfo.Username ∉ allowedUsers)
    (hop : req.Operation ≠ "CREATE" ∧ req.Operation ≠ "UPDATE") :
    admitReview protectedLabel allowedUsers Unmarshal ar =
      .ok (toAdmissionResponse "expected operation to be CREATE or UPDATE") := by
  have h := (isUserAllowed_eq_false_iff allowedUsers req.UserInfo.Username).mpr huser
  simp [admitReview, hreq, h, hop.1, hop.2]

theorem admitReview_of_decode_error (protectedLabel : String) (allowedUsers : List String)
    (Unmarshal : UnmarshalFn) (ar : AdmissionReview) (req : AdmissionRequest) (err : String)
    (hreq : ar.Request = some req) (huser : req.UserInfo.Username ∉ allowedUsers)
    (hop : req.Operation = "CREATE" ∨ req.Operation = "UPDATE")
    (hdec : Unmarshal req.Object.Raw = .error err) :
    admitReview protectedLabel allowedUsers Unmarshal ar = .ok (toAdmissionResponse err) := by
  have h := (isUserAllowed_eq_false_iff allowedUsers req.UserInfo.Username).mpr huser
  rcases hop with hop | hop <;> simp [admitReview, hreq, h, hop, hdec]

theorem admitReview_of_decoded (protectedLabel : String) (allowedUsers : List String)
    (Unmarshal : UnmarshalFn) (ar : AdmissionReview) (req : AdmissionRequest) (meta : Meta)
    (hreq : ar.Request = some req) (huser : req.UserInfo.Username ∉ allowedUsers)
    (hop : req.Operation = "CREATE" ∨ req.Operation = "UPDATE")
    (hdec : Unmarshal req.Object.Raw = .ok meta) :
    admitReview protectedLabel allowedUsers Unmarshal ar =
      .ok (scanLabels protectedLabel { Allowed := true } meta.ObjectMeta.Labels) := by
  have h := (isUserAllowed_eq_false_iff allowedUsers req.UserInfo.Username).mpr huser
  rcases hop with hop | hop <;> simp [admitReview, hreq, h, hop, hdec]

theorem label_message_ne_empty (protectedLabel : String) :
    "label " ++ protectedLabel ++ " is protected" ≠ "" := by
  intro h
  have hlen := congrArg String.length h
  simp only [String.length_append] at hlen
  have hpos : 0 < "label ".length := by decide
  have hzero : "".length = 0 := rfl
  omega

theorem mkServe_fault_of_rejected_envelope (protectedLabel : String)
    (allowedUsers : List String) (Unmarshal : UnmarshalFn) (Decode : DecodeFn)
    (r : HttpRequest) (ar : AdmissionReview) (err : String)
    (hct : r.ContentType = "application/json")
    (hdec : Decode (readBody r) {} = (ar, some err))
    (hreq : ar.Request = none) :
    mkServe protectedLabel allowedUsers Unmarshal Decode r =
      .fault .nilPointerDereference := by
  simp [mkServe, hct, hdec, hreq]

/-! ## The claims -/

/-- C1: for a username outside `allowedUsers`, a CREATE or UPDATE request whose
payload decodes to labels that hold the key `protectedLabel` (with any value)
is answered with `Allowed = false` and the message
"label <protectedLabel> is protected". -/
theorem admitReview_denies_protected_label (protectedLabel : String) (allowedUsers : List String)
    (Unmarshal : UnmarshalFn) (ar : AdmissionReview) (req : AdmissionRequest) (meta : Meta)
    (hreq : ar.Request = some req)
    (huser : req.UserInfo.Username ∉ allowedUsers)
    (hop : req.Operation = "CREATE" ∨ req.Operation = "UPDATE")
    (hdec : Unmarshal req.Object.Raw = .ok meta)
    (hkey : ∃ v, (protectedLabel, v) ∈ meta.ObjectMeta.Labels) :
    admitReview protectedLabel allowedUsers Unmarshal ar =
      .ok { UID := "", Allowed := false,
            Result := some { Message := "label " ++ protectedLabel ++ " is protected" } } := by
  rw [admitReview_of_decoded protectedLabel allowedUsers Unmarshal ar req meta hreq huser hop hdec,
    scanLabels_of_key protectedLabel _ _ hkey]

/-- C1, scenario A: with protected label "team" and allowed users ["admin"],
alice updating an object labelled team=x is denied with the message
"label team is protected". -/
theorem admitReview_denies_protected_label_witness :
    admitReview "team" ["admin"] sampleUnmarshal
        { Request := some (sampleRequest "" "alice" "UPDATE" payloadTeam) } =
      .ok { UID := "", Allowed := false,
            Result := some { Message := "label team is protected" } } :=
  admitReview_denies_protected_label "team" ["admin"] sampleUnmarshal
    { Request := some (sampleRequest "" "alice" "UPDATE" payloadTeam) }
    (sampleRequest "" "alice" "UPDATE" payloadTeam)
    { ObjectMeta := { Labels := [("team", "x")] } }
    rfl (by decide) (Or.inr rfl) rfl ⟨"x", by decide⟩

/-- C2: for a username in `allowedUsers`, `admit` answers `Allowed = true` with
no result message, whatever the operation and the payload are and whatever the
payload decoder would do with it. -/
theorem admitReview_allows_allowed_user (protectedLabel : String) (allowedUsers : List String)
    (Unmarshal : UnmarshalFn) (ar : AdmissionReview) (req : AdmissionRequest)
    (hreq : ar.Request = some req)
    (huser : req.UserInfo.Username ∈ allowedUsers) :
    admitReview protectedLabel allowedUsers Unmarshal ar =
      .ok { UID := "", Allowed := true, Result := none } :=
  admitReview_of_allowed protectedLabel allowedUsers Unmarshal ar req hreq huser

/-- C2, scenario B: admin updating an object labelled team=x is allowed. -/
theorem admitReview_allows_allowed_user_witness :
    admitReview "team" ["admin"] sampleUnmarshal
        { Request := some (sampleRequest "" "admin" "UPDATE" payloadTeam) } =
      .ok { UID := "", Allowed := true, Result := none } :=
  admitReview_allows_allowed_user "team" ["admin"] sampleUnmarshal
    { Request := some (sampleRequest "" "admin" "UPDATE" payloadTeam) }
    (sampleRequest "" "admin" "UPDATE" payloadTeam) rfl (by decide)

/-- C3: for a username outside `allowedUsers`, a CREATE or UPDATE request whose
payload decodes to labels without the key `protectedLabel` (an empty mapping
included) is answered with `Allowed = true` and no result message. -/
theorem admitReview_allows_unprotected_labels (protectedLabel : String)
    (allowedUsers : List String) (Unmarshal : UnmarshalFn) (ar : AdmissionReview)
    (req : AdmissionRequest) (meta : Meta)
    (hreq : ar.Request = some req)
    (huser : req.UserInfo.Username ∉ allowedUsers)
    (hop : req.Operation = "CREATE" ∨ req.Operation = "UPDATE")
    (hdec : Unmarshal req.Object.Raw = .ok meta)
    (hkey : ∀ kv ∈ meta.ObjectMeta.Labels, kv.1 ≠ protectedLabel) :
    admitReview protectedLabel allowedUsers Unmarshal ar =
      .ok { UID := "", Allowed := true, Result := none } := by
  rw [admitReview_of_decoded protectedLabel allowedUsers Unmarshal ar req meta hreq huser hop hdec,
    scanLabels_of_no_key protectedLabel _ _ hkey]

/-- C3, scenario C: alice creating an object labelled app=x is allowed. -/
theorem admitReview_allows_unprotected_labels_witness :
    admitReview "team" ["admin"] sampleUnmarshal
        { Request := some (sampleRequest "" "alice" "CREATE" payloadApp) } =
      .ok { UID := "", Allowed := true, Result := none } :=
  admitReview_allows_unprotected_labels "team" ["admin"] sampleUnmarshal
    { Request := some (sampleRequest "" "alice" "CREATE" payloadApp) }
    (sampleRequest "" "alice" "CREATE" payloadApp)
    { ObjectMeta := { Labels := [("app", "x")] } }
    rfl (by decide) (Or.inl rfl) rfl (by decide)

/-- C4: for a username outside `allowedUsers` and an operation that is neither
"CREATE" nor "UPDATE", `admit` returns an error response with `Allowed = false`,
and the same response for every payload and every behaviour of the payload
decoder. -/
theorem admitReview_rejects_other_operation (protectedLabel : String)
    (allowedUsers : List String) (Unmarshal : UnmarshalFn) (ar : AdmissionReview)
    (req : AdmissionRequest)
    (hreq : ar.Request = some req)
    (huser : req.UserInfo.Username ∉ allowedUsers)
    (hop : req.Operation ≠ "CREATE" ∧ req.Operation ≠ "UPDATE") :
    ∃ resp : AdmissionResponse,
      admitReview protectedLabel allowedUsers Unmarshal ar = .ok resp ∧
      resp.Allowed = false ∧ resp.Result.isSome = true ∧
      ∀ (Unmarshal2 : UnmarshalFn) (object : RawExtension),
        admitReview protectedLabel allowedUsers Unmarshal2
          { ar with Request := some { req with Object := object } } = .ok resp := by
  refine ⟨toAdmissionResponse "expected operation to be CREATE or UPDATE",
    admitReview_of_other_operation protectedLabel allowedUsers Unmarshal ar req hreq huser hop,
    rfl, rfl, ?_⟩
  intro Unmarshal2 object
  exact admitReview_of_other_operation protectedLabel allowedUsers Unmarshal2 _
    { req with Object := object } rfl huser hop

/-- C4 at alice deleting an object labelled team=x. -/
theorem admitReview_rejects_other_operation_witness :
    ∃ resp : AdmissionResponse,
      admitReview "team" ["admin"] sampleUnmarshal
          { Request := some (sampleRequest "" "alice" "DELETE" payloadTeam) } = .ok resp ∧
      resp.Allowed = false ∧ resp.Result.isSome = true ∧
      ∀ (Unmarshal2 : UnmarshalFn) (object : RawExtension),
        admitReview "team" ["admin"] Unmarshal2
          { ({ Request := some (sampleRequest "" "alice" "DELETE" payloadTeam) } :
              AdmissionReview) with
            Request := some
              { sampleRequest "" "alice" "DELETE" payloadTeam with Object := object } } =
          .ok resp :=
  admitReview_rejects_other_operation "team" ["admin"] sampleUnmarshal
    { Request := some (sampleRequest "" "alice" "DELETE" payloadTeam) }
    (sampleRequest "" "alice" "DELETE" payloadTeam) rfl (by decide)
    ⟨by decide, by decide⟩

/-- C5: for a username outside `allowedUsers`, a CREATE or UPDATE request whose
payload fails to decode is answered with `Allowed = false` and the text of the
decode error as message. -/
theorem admitReview_denies_on_decode_error (protectedLabel : String)
    (allowedUsers : List String) (Unmarshal : UnmarshalFn) (ar : AdmissionReview)
    (req : AdmissionRequest) (err : String)
    (hreq : ar.Request = some req)
    (huser : req.UserInfo.Username ∉ allowedUsers)
    (hop : req.Operation = "CREATE" ∨ req.Operation = "UPDATE")
    (hdec : Unmarshal req.Object.Raw = .error err) :
    admitReview protectedLabel allowedUsers Unmarshal ar =
      .ok { UID := "", Allowed := false, Result := some { Message := err } } :=
  admitReview_of_decode_error protectedLabel allowedUsers Unmarshal ar req err hreq huser hop hdec

/-- C5, scenario E: alice creating an object with a truncated payload is denied
with the decoder's error text. -/
theorem admitReview_denies_on_decode_error_witness :
    admitReview "team" ["admin"] sampleUnmarshal
        { Request := some (sampleRequest "" "alice" "CREATE" payloadTruncated) } =
      .ok { UID := "", Allowed := false,
            Result := some { Message := "unexpected end of JSON input" } } :=
  admitReview_denies_on_decode_error "team" ["admin"] sampleUnmarshal
    { Request := some (sampleRequest "" "alice" "CREATE" payloadTruncated) }
    (sampleRequest "" "alice" "CREATE" payloadTruncated)
    "unexpected end of JSON input" rfl (by decide) (Or.inl rfl) rfl

theorem admitReview_ok_of_request (protectedLabel : String) (allowedUsers : List String)
    (Unmarshal : UnmarshalFn) (ar : AdmissionReview) (req : AdmissionRequest)
    (hreq : ar.Request = some req) :
    ∃ verdict, admitReview protectedLabel allowedUsers Unmarshal ar = .ok verdict := by
  unfold admitReview
  simp only [hreq]
  split_ifs
  · exact ⟨_, rfl⟩
  · split <;> exact ⟨_, rfl⟩
  · exact ⟨_, rfl⟩

/-- C6: when the review envelope decodes and its request carries the UID X, the
handler writes a response envelope whose response is the outcome of `admit`
(a verdict or an error response) with its UID set to X. -/
theorem mkServe_echoes_uid (protectedLabel : String) (allowedUsers : List String)
    (Unmarshal : UnmarshalFn) (Decode : DecodeFn) (r : HttpRequest)
    (ar : AdmissionReview) (req : AdmissionRequest)
    (hct : r.ContentType = "application/json")
    (hdec : Decode (readBody r) {} = (ar, none))
    (hreq : ar.Request = some req) :
    ∃ verdict : AdmissionResponse,
      admitReview protectedLabel allowedUsers Unmarshal ar = .ok verdict ∧
      mkServe protectedLabel allowedUsers Unmarshal Decode r =
        .wrote { Request := none,
                 Response := some { UID := req.UID, Allowed := verdict.Allowed,
                                    Result := verdict.Result } } := by
  obtain ⟨verdict, hv⟩ := admitReview_ok_of_request protectedLabel allowedUsers Unmarshal ar req hreq
  refine ⟨verdict, hv, ?_⟩
  simp [mkServe, hct, hdec, hv, hreq, Except.map]

/-- C6 at the sample envelope: the request of UID "u-1" is answered with a
response of UID "u-1". -/
theorem mkServe_echoes_uid_witness :
    ∃ verdict : AdmissionResponse,
      admitReview "team" ["admin"] sampleUnmarshal
        { Request := some (sampleRequest "u-1" "alice" "DELETE" payloadTeam) } =
          .ok verdict ∧
      mkServe "team" ["admin"] sampleUnmarshal sampleDecode
          { Body := some (.ok bodyReview), ContentType := "application/json" } =
        .wrote { Request := none,
                 Response := some { UID := "u-1", Allowed := verdict.Allowed,
                                    Result := verdict.Result } } :=
  mkServe_echoes_uid "team" ["admin"] sampleUnmarshal sampleDecode
    { Body := some (.ok bodyReview), ContentType := "application/json" }
    { Request := some (sampleRequest "u-1" "alice" "DELETE" payloadTeam) }
    (sampleRequest "u-1" "alice" "DELETE" payloadTeam) rfl rfl rfl

/-- C7: on the truncated envelope body, which the deserializer rejects without
filling in the request, the handler does not write a response: it stops with a
nil pointer dereference when it copies the UID (line 114). -/
theorem mkServe_faults_on_malformed_envelope :
    sampleDecode bodyTruncated {} =
      ({ Request := none, Response := none },
       some "couldn't get version/kind; json parse error: unexpected end of JSON input") ∧
    mkServe "team" ["admin"] sampleUnmarshal sampleDecode
        { Body := some (.ok bodyTruncated), ContentType := "application/json" } =
      .fault .nilPointerDereference :=
  ⟨rfl, mkServe_fault_of_rejected_envelope "team" ["admin"] sampleUnmarshal sampleDecode
    { Body := some (.ok bodyTruncated), ContentType := "application/json" } {} _ rfl rfl rfl⟩

theorem admitReview_denial_result (protectedLabel : String) (allowedUsers : List String)
    (Unmarshal : UnmarshalFn) (ar : AdmissionReview) (resp : AdmissionResponse)
    (hres : admitReview protectedLabel allowedUsers Unmarshal ar = .ok resp)
    (hden : resp.Allowed = false) :
    ∃ st : Status, resp.Result = some st ∧
      (st.Message ≠ "" ∨
        ∃ req : AdmissionRequest, ar.Request = some req ∧
          req.UserInfo.Username ∉ allowedUsers ∧
          (req.Operation = "CREATE" ∨ req.Operation = "UPDATE") ∧
          Unmarshal req.Object.Raw = .error st.Message) := by
  cases hreq : ar.Request with
  | none => simp [admitReview, hreq] at hres
  | some req =>
    by_cases huser : req.UserInfo.Username ∈ allowedUsers
    · rw [admitReview_of_allowed protectedLabel allowedUsers Unmarshal ar req hreq huser] at hres
      cases hres
      simp at hden
    · by_cases hop : req.Operation = "CREATE" ∨ req.Operation = "UPDATE"
      · cases hdec : Unmarshal req.Object.Raw with
        | error err =>
          rw [admitReview_of_decode_error protectedLabel allowedUsers Unmarshal ar req err
            hreq huser hop hdec] at hres
          cases hres
          exact ⟨{ Message := err }, rfl, Or.inr ⟨req, rfl, huser, hop, hdec⟩⟩
        | ok meta =>
          rw [admitReview_of_decoded protectedLabel allowedUsers Unmarshal ar req meta
            hreq huser hop hdec] at hres
          by_cases hkey : ∃ v, (protectedLabel, v) ∈ meta.ObjectMeta.Labels
          · rw [scanLabels_of_key protectedLabel _ _ hkey] at hres
            cases hres
            exact ⟨_, rfl, Or.inl (label_message_ne_empty protectedLabel)⟩
          · have hno : ∀ kv ∈ meta.ObjectMeta.Labels, kv.1 ≠ protectedLabel := by
              intro kv hkv hk
              exact hkey ⟨kv.2, by rw [← hk]; exact hkv⟩
            rw [scanLabels_of_no_key protectedLabel _ _ hno] at hres
            cases hres
            simp at hden
      · have hop2 : req.Operation ≠ "CREATE" ∧ req.Operation ≠ "UPDATE" :=
          ⟨fun h => hop (Or.inl h), fun h => hop (Or.inr h)⟩
        rw [admitReview_of_other_operation protectedLabel allowedUsers Unmarshal ar req
          hreq huser hop2] at hres
        cases hres
        exact ⟨_, rfl, Or.inl (by decide)⟩

/-- When the payload decoder never reports an error with an empty text, every
response of `admit` with `Allowed = false` has a result with a non-empty
message. -/
theorem admitReview_denial_message_of_decoder_texts (protectedLabel : String)
    (allowedUsers : List String) (Unmarshal : UnmarshalFn) (ar : AdmissionReview)
    (resp : AdmissionResponse)
    (hlib : ∀ raw err, Unmarshal raw = .error err → err ≠ "")
    (hres : admitReview protectedLabel allowedUsers Unmarshal ar = .ok resp)
    (hden : resp.Allowed = false) :
    ∃ st : Status, resp.Result = some st ∧ st.Message ≠ "" := by
  obtain ⟨st, hst, hmsg⟩ :=
    admitReview_denial_result protectedLabel allowedUsers Unmarshal ar resp hres hden
  refine ⟨st, hst, ?_⟩
  rcases hmsg with h | ⟨req, _, _, _, hdec⟩
  · exact h
  · exact hlib _ _ hdec

/-- C8 fails: `admit` copies the text of a payload decode error into the
response without looking at it, so with a decoder whose error text is empty
alice creating an object is answered with `Allowed = false` and an empty
message. -/
theorem admitReview_denial_with_empty_message :
    emptyTextUnmarshal payloadTruncated = .error "" ∧
    admitReview "team" ["admin"] emptyTextUnmarshal
        { Request := some (sampleRequest "" "alice" "CREATE" payloadTruncated) } =
      .ok { UID := "", Allowed := false, Result := some { Message := "" } } :=
  ⟨rfl, rfl⟩

/-- C8 as amended: every response of `admit` with `Allowed = false` has a
result, and its message is non-empty unless the request is a CREATE or UPDATE
of a username outside `allowedUsers` whose payload failed to decode, in which
case the message is the text of the decode error. -/
theorem admitReview_denial_has_result (protectedLabel : String)
    (allowedUsers : List String) (Unmarshal : UnmarshalFn) (ar : AdmissionReview)
    (resp : AdmissionResponse)
    (hres : admitReview protectedLabel allowedUsers Unmarshal ar = .ok resp)
    (hden : resp.Allowed = false) :
    ∃ st : Status, resp.Result = some st ∧
      (st.Message ≠ "" ∨
        ∃ req : AdmissionRequest, ar.Request = some req ∧
          req.UserInfo.Username ∉ allowedUsers ∧
          (req.Operation = "CREATE" ∨ req.Operation = "UPDATE") ∧
          Unmarshal req.Object.Raw = .error st.Message) :=
  admitReview_denial_result protectedLabel allowedUsers Unmarshal ar resp hres hden

/-- C8 as amended, at alice creating an object with a truncated payload: the
denial carries the decoder's error text. -/
theorem admitReview_denial_has_result_witness :
    admitReview "team" ["admin"] sampleUnmarshal
        { Request := some (sampleRequest "" "alice" "CREATE" payloadTruncated) } =
      .ok ⟨"", false, some { Message := "unexpected end of JSON input" }⟩ ∧
    ∃ st : Status,
      (⟨"", false, some { Message := "unexpected end of JSON input" }⟩ :
        AdmissionResponse).Result = some st ∧
      (st.Message ≠ "" ∨
        ∃ req : AdmissionRequest,
          ({ Request := some (sampleRequest "" "alice" "CREATE" payloadTruncated) } :
            AdmissionReview).Request = some req ∧
          req.UserInfo.Username ∉ ["admin"] ∧
          (req.Operation = "CREATE" ∨ req.Operation = "UPDATE") ∧
          sampleUnmarshal req.Object.Raw = .error st.Message) :=
  ⟨rfl, admitReview_denial_has_result "team" ["admin"] sampleUnmarshal
    { Request := some (sampleRequest "" "alice" "CREATE" payloadTruncated) }
    ⟨"", false, some { Message := "unexpected end of JSON input" }⟩ rfl rfl⟩

/-- C9 fails: with the empty string as protected label, alice creating an
object whose only label has the empty string as key is denied. -/
theorem admitReview_empty_protected_label_denies :
    sampleUnmarshal payloadEmptyKey = .ok { ObjectMeta := { Labels := [("", "x")] } } ∧
    admitReview "" [] sampleUnmarshal
        { Request := some (sampleRequest "" "alice" "CREATE" payloadEmptyKey) } =
      .ok { UID := "", Allowed := false,
            Result := some { Message := "label  is protected" } } :=
  ⟨rfl, rfl⟩

/-- C9 as amended: with the empty string as protected label, a CREATE or UPDATE
request whose payload decodes is answered with `Allowed = true` when the
username is in `allowedUsers` or no label of the object has the empty string as
key. -/
theorem admitReview_empty_protected_label_allows (allowedUsers : List String)
    (Unmarshal : UnmarshalFn) (ar : AdmissionReview) (req : AdmissionRequest) (meta : Meta)
    (hreq : ar.Request = some req)
    (hop : req.Operation = "CREATE" ∨ req.Operation = "UPDATE")
    (hdec : Unmarshal req.Object.Raw = .ok meta)
    (hkeys : req.UserInfo.Username ∈ allowedUsers ∨
      ∀ kv ∈ meta.ObjectMeta.Labels, kv.1 ≠ "") :
    admitReview "" allowedUsers Unmarshal ar =
      .ok { UID := "", Allowed := true, Result := none } := by
  by_cases huser : req.UserInfo.Username ∈ allowedUsers
  · exact admitReview_of_allowed "" allowedUsers Unmarshal ar req hreq huser
  · have hno : ∀ kv ∈ meta.ObjectMeta.Labels, kv.1 ≠ "" := hkeys.resolve_left huser
    rw [admitReview_of_decoded "" allowedUsers Unmarshal ar req meta hreq huser hop hdec,
      scanLabels_of_no_key "" _ _ hno]

/-- C9 as amended, at alice creating an object labelled app=x. -/
theorem admitReview_empty_protected_label_allows_witness :
    admitReview "" ["admin"] sampleUnmarshal
        { Request := some (sampleRequest "" "alice" "CREATE" payloadApp) } =
      .ok { UID := "", Allowed := true, Result := none } :=
  admitReview_empty_protected_label_allows ["admin"] sampleUnmarshal
    { Request := some (sampleRequest "" "alice" "CREATE" payloadApp) }
    (sampleRequest "" "alice" "CREATE" payloadApp)
    { ObjectMeta := { Labels := [("app", "x")] } }
    rfl (Or.inl rfl) rfl (Or.inr (by decide))

/-- C10 fails: alice deleting an object gets the message
"expected operation to be CREATE or UPDATE", which is not the text
"unsupported operation kind". -/
theorem admitReview_other_operation_message_differs :
    admitReview "team" ["admin"] sampleUnmarshal
        { Request := some (sampleRequest "" "alice" "DELETE" payloadTeam) } =
      .ok { UID := "", Allowed := false,
            Result := some { Message := "expected operation to be CREATE or UPDATE" } } ∧
    "expected operation to be CREATE or UPDATE" ≠ "unsupported operation kind" :=
  ⟨rfl, by decide⟩

/-- C10 as amended: for a username outside `allowedUsers` and an operation that
is neither CREATE nor UPDATE, the response of `admit` carries the message
"expected operation to be CREATE or UPDATE". -/
theorem admitReview_other_operation_message (protectedLabel : String)
    (allowedUsers : List String) (Unmarshal : UnmarshalFn) (ar : AdmissionReview)
    (req : AdmissionRequest)
    (hreq : ar.Request = some req)
    (huser : req.UserInfo.Username ∉ allowedUsers)
    (hop : req.Operation ≠ "CREATE" ∧ req.Operation ≠ "UPDATE") :
    (admitReview protectedLabel allowedUsers Unmarshal ar).map (fun resp => resp.Result) =
      .ok (some { Message := "expected operation to be CREATE or UPDATE" }) := by
  rw [admitReview_of_other_operation protectedLabel allowedUsers Unmarshal ar req hreq huser hop]
  rfl

/-- C10 as amended, scenario D: alice deleting an object. -/
theorem admitReview_other_operation_message_witness :
    (admitReview "team" ["admin"] sampleUnmarshal
        { Request := some (sampleRequest "" "alice" "DELETE" payloadTeam) }).map
        (fun resp => resp.Result) =
      .ok (some { Message := "expected operation to be CREATE or UPDATE" }) :=
  admitReview_other_operation_message "team" ["admin"] sampleUnmarshal
    { Request := some (sampleRequest "" "alice" "DELETE" payloadTeam) }
    (sampleRequest "" "alice" "DELETE" payloadTeam) rfl (by decide)
    ⟨by decide, by decide⟩

end KubeLabelAdmission
